import Mathlib

/-!
Verification of the Trivia Query and Selection Engine
(`backend/flaskr/__init__.py`) against its natural-language specification.

The engine is embedded shallowly: each Flask view function or helper becomes a
pure Lean function over an explicit snapshot of the question store.  HTTP error
responses produced through `abort(code)` become `Except Err` failure values;
state changes (deletion) are returned as an updated snapshot.  Python's
`abort` raises a `werkzeug` `HTTPException`, which is a subclass of
`Exception`; consequently an `abort(400)` executed inside a
`try ... except Exception` block is caught by the handler, a fact the
embedding of `insert_question` reproduces faithfully.
-/

deriving instance DecidableEq for Except

namespace Trivia

/-- A question record, as stored by the repository and shaped by
`Question.format()`: id, question text, answer, category id, difficulty. -/
structure Question where
  id : Nat
  question : String
  answer : String
  category : Nat
  difficulty : Nat
deriving Repr, DecidableEq

/-- A category record: id and display label (`type`). -/
structure Category where
  id : Nat
  type : String
deriving Repr, DecidableEq

/-- The HTTP-level failure outcomes the engine can produce.  `badRequest` is
`abort(400)` (the spec's InvalidRequest), `notFound` is `abort(404)`,
`unprocessable` is `abort(422)` (the spec's UnprocessableEntity), and
`serverError` stands for an uncaught Python exception (HTTP 500). -/
inductive Err where
  | badRequest
  | notFound
  | unprocessable
  | serverError
deriving Repr, DecidableEq

/-- `QUESTIONS_PER_PAGE = 10` (line 9 of the source). -/
def QUESTIONS_PER_PAGE : Nat := 10

/-- The Paginator (spec 4.3): `start = (page-1)*pageSize`, `end = start +
pageSize`, result is the slice `items[start:end]`.  The source
(`paginate_questions`, lines 74-82) instantiates `pageSize` with
`QUESTIONS_PER_PAGE`; the slice `items[start:start+pageSize]` with
non-negative bounds is `(items.drop start).take pageSize`. -/
def paginate {α : Type} (items : List α) (page pageSize : Nat) : List α :=
  let start := (page - 1) * pageSize
  (items.drop start).take pageSize

/-- `paginate_questions` (source lines 74-82): slices the formatted question
list into the requested page of `QUESTIONS_PER_PAGE` records.  The `page`
argument is the request's `page` query parameter (default 1). -/
def paginate_questions (questions : List Question) (page : Nat) : List Question :=
  paginate questions page QUESTIONS_PER_PAGE

/-- Successful response shape of `GET /questions` (source lines 57-72). -/
structure QuestionsPage where
  questions : List Question
  total_questions : Nat
  categories : List String
  current_category : Option String
deriving Repr, DecidableEq

/-- `get_questions` (source lines 57-72): paginate all questions, `abort(404)`
when the page slice is empty, otherwise return the page, the count of all
questions, the category labels, and `current_category = None`. -/
def get_questions (db : List Question) (cats : List Category) (page : Nat) :
    Except Err QuestionsPage :=
  let formated := paginate_questions db page
  if formated.length == 0 then
    .error .notFound
  else
    .ok ⟨formated, db.length, cats.map (fun c => c.type), none⟩

/-- Successful response shape of `DELETE /questions/<id>` (lines 99-103). -/
structure DeleteResult where
  questions : List Question
  deleted : Nat
deriving Repr, DecidableEq

/-- `get_question` (the DELETE view, source lines 86-105): look the id up with
`one_or_none` (no match: `abort(404)`; multiple matches: an uncaught
`MultipleResultsFound`, i.e. a 500), delete the matched record, and return the
deleted id together with the requested page (`page` query parameter, default
1) of the remaining questions.  The pair carries the resulting snapshot. -/
def get_question (db : List Question) (id page : Nat) :
    List Question × Except Err DeleteResult :=
  match db.filter (fun q => q.id == id) with
  | [] => (db, .error .notFound)
  | [_] =>
      let db2 := db.filter (fun q => !(q.id == id))
      (db2, .ok ⟨paginate_questions db2 page, id⟩)
  | _ => (db, .error .serverError)

/-- The JSON body of `POST /questions`; absent keys are `none`
(`json_body.get(key, None)` in the source). -/
structure Body where
  question : Option String
  answer : Option String
  difficulty : Option Nat
  category : Option Nat
  searchTerm : Option String
deriving Repr, DecidableEq

/-- Successful response shape of question creation (source lines 142-147). -/
structure InsertResult where
  questions : List Question
  created : Nat
  question_created : String
deriving Repr, DecidableEq

/-- `insert_question` (source lines 125-149).  The whole body runs inside
`try ... except Exception: abort(422)`.  Missing fields trigger `abort(400)`,
but that raises an `HTTPException` (a subclass of `Exception`) *inside* the
`try`, so the `except` clause converts it to `abort(422)`.  The repository
call `question.insert()` lives outside `src/`, so its outcome is passed in as
the `ins` argument: `.ok q` is a successful insert of the freshly built
record, `.error` is a raised repository exception, likewise converted to 422.
The first component of the result is the resulting snapshot. -/
def insert_question (db : List Question) (ins : Except Unit Question)
    (body : Body) (page : Nat) : List Question × Except Err InsertResult :=
  let tryBlock : List Question × Except Err InsertResult :=
    match body.question, body.answer, body.difficulty, body.category with
    | some _, some _, some _, some _ =>
        match ins with
        | .error _ => (db, .error .unprocessable)
        | .ok q =>
            let db2 := db ++ [q]
            (db2, .ok ⟨paginate_questions db2 page, q.id, q.question⟩)
    | _, _, _, _ => (db, .error .badRequest)
  match tryBlock with
  | (d, .error _) => (d, .error .unprocessable)
  | ok => ok

/-- Modelled from the spec: the repository insert (`Question.insert` in
`models.py`, which is not under `src/`).  Spec 4.1: insert fails with a
ValidationError if `question`, `answer`, `difficulty`, or `category` is
missing/empty, or if `category` does not resolve to an existing Category;
otherwise it assigns an id and stores the record.  Used to exhibit a concrete
failing insert (non-existent category) for the create operation. -/
def repo_insert (cats : List Category) (newId : Nat)
    (question answer : String) (category difficulty : Nat) :
    Except Unit Question :=
  if question = "" ∨ answer = "" ∨ (∀ c ∈ cats, c.id ≠ category) then
    .error ()
  else
    .ok ⟨newId, question, answer, category, difficulty⟩

/-- SQL `ILIKE` pattern matching over explicit character lists, the semantics
of the repository query `Question.question.ilike(pattern)` (source line 158).
The backend is PostgreSQL (`test_flaskr.py` hard-codes a
`postgresql+psycopg2` URL), whose LIKE/ILIKE has three metacharacters: the
wildcard `%` matches any (possibly empty) substring, `_` matches exactly one
character, and the backslash — PostgreSQL's default escape character, since
SQLAlchemy's `ilike()` adds no ESCAPE clause — strips the following pattern
character of any special meaning, so that an escaped character matches
itself literally (still case-insensitively).  Every other pattern character
matches case-insensitively (compared through `Char.toLower`).  A pattern
ending in a lone escape character is an error in PostgreSQL; it is modelled
as matching nothing (the pattern built by the search operation always ends
in `%`, so this case is unreachable there).  Structural recursion on the
pattern: the `%` case tries every suffix of the remaining text. -/
def ilikeMatch : List Char → List Char → Bool
  | [], s => s.isEmpty
  | c :: ps, s =>
    if c = '%' then
      s.tails.any (fun t => ilikeMatch ps t)
    else if c = '\\' then
      match ps, s with
      | e :: ps', d :: t => (e.toLower == d.toLower) && ilikeMatch ps' t
      | _, _ => false
    else
      match s with
      | [] => false
      | d :: t => (c == '_' || c.toLower == d.toLower) && ilikeMatch ps t

/-- `text ILIKE pattern` on strings. -/
def ilike (text pattern : String) : Bool :=
  ilikeMatch pattern.data text.data

/-- The repository-side filter of `search_question` (source lines 157-158):
keep the questions whose text matches `ILIKE '%' + term + '%'`, in listing
order. -/
def search_filter (db : List Question) (term : String) : List Question :=
  db.filter (fun q => ilike q.question ("%" ++ term ++ "%"))

/-- The Search Matcher as the specification words it (spec 4.4): keep exactly
the questions whose text contains the term as a substring under a
case-insensitive comparison, in listing order.  Stated independently of the
source so that the repository query can be compared against it. -/
def ci_substring_filter (db : List Question) (term : String) : List Question :=
  db.filter (fun q =>
    decide ((term.data.map Char.toLower) <:+: (q.question.data.map Char.toLower)))

/-- Successful response shape of the search branch (source lines 165-170). -/
structure SearchResult where
  questions : List Question
  total_questions : Nat
  current_category : Option String
deriving Repr, DecidableEq

/-- `search_question` (source lines 155-170): read `searchTerm` from the body
(default empty string), filter with `ILIKE`, `abort(404)` on zero matches,
otherwise return the matches, their count, and `current_category = None`. -/
def search_question (db : List Question) (body : Body) :
    Except Err SearchResult :=
  let term := body.searchTerm.getD ""
  let formated := search_filter db term
  if formated.length == 0 then
    .error .notFound
  else
    .ok ⟨formated, formated.length, none⟩

/-- The two possible success payloads of `POST /questions`. -/
inductive PostResult where
  | created (r : InsertResult)
  | searched (r : SearchResult)
deriving Repr, DecidableEq

/-- `post_question` (source lines 111-123): dispatch on the body.  A present
(non-null) `question` key selects creation — the `searchTerm` key is never
consulted in that branch; otherwise a present `searchTerm` selects search;
otherwise `abort(400)`. -/
def post_question (db : List Question) (ins : Except Unit Question)
    (body : Body) (page : Nat) : List Question × Except Err PostResult :=
  match body.question with
  | some _ =>
      match insert_question db ins body page with
      | (d, .error e) => (d, .error e)
      | (d, .ok r) => (d, .ok (.created r))
  | none =>
      match body.searchTerm with
      | some _ =>
          match search_question db body with
          | .error e => (db, .error e)
          | .ok r => (db, .ok (.searched r))
      | none => (db, .error .badRequest)

/-- Successful response shape of `GET /categories/<id>/questions`
(source lines 182-187). -/
structure CategoryResult where
  questions : List Question
  total_questions : Nat
  current_category : String
deriving Repr, DecidableEq

/-- `get_by_category` (source lines 174-187): keep the questions whose
category equals the id, `abort(404)` when none match, otherwise return the
matches, their count, and `current_category = str(id)`. -/
def get_by_category (db : List Question) (id : Nat) :
    Except Err CategoryResult :=
  let questions := db.filter (fun q => q.category == id)
  if questions.length == 0 then
    .error .notFound
  else
    .ok ⟨questions, questions.length, toString id⟩

/-- The candidate pool of `check_category` (source lines 220-227):
`category_id == 0` selects every question, any other id selects the questions
of that category. -/
def quiz_pool (db : List Question) (category_id : Nat) : List Question :=
  if category_id == 0 then db else db.filter (fun q => q.category == category_id)

/-- `get_different_question` (source lines 234-239): walk the shuffled pool
and return the first question whose id is not among the previous questions;
when the loop falls through, Python returns `None`.  The random
`random.shuffle` is made explicit: the function receives the already
shuffled list. -/
def get_different_question (shuffled : List Question) (previous : List Nat) :
    Option Question :=
  shuffled.find? (fun q => !(previous.contains q.id))

/-- `check_category` (source lines 220-232): resolve the candidate pool,
`abort(404)` when it is empty, otherwise pick a question (or `none`) through
`get_different_question`.  `shuffle` is the injected stand-in for
`random.shuffle`; the theorems only assume it permutes its input. -/
def check_category (shuffle : List Question → List Question)
    (db : List Question) (category_id : Nat) (previous : List Nat) :
    Except Err (Option Question) :=
  let questions := quiz_pool db category_id
  if questions.length == 0 then
    .error .notFound
  else
    .ok (get_different_question (shuffle questions) previous)

/-- `get_quizzes` (source lines 195-218): read `previous_questions` and
`quiz_category` from the body.  The source evaluates `quiz_category['id']`
*before* its own None-check, so a missing `quiz_category` raises a
`TypeError` (HTTP 500); a missing `previous_questions` reaches the check and
yields `abort(400)`.  Otherwise the result of `check_category` is wrapped:
a question is returned as a success, and `None` ("no more questions") is
likewise returned as a success with a null question. -/
def get_quizzes (shuffle : List Question → List Question)
    (db : List Question) (previous_questions : Option (List Nat))
    (quiz_category : Option Nat) : Except Err (Option Question) :=
  match quiz_category with
  | none => .error .serverError
  | some category_id =>
      match previous_questions with
      | none => .error .badRequest
      | some previous => check_category shuffle db category_id previous

/-! Sample records used by the concrete witnesses. -/

/-- A sample question with id 1. -/
def q1 : Question := ⟨1, "q1", "a1", 1, 1⟩

/-- A sample question with id 2. -/
def q2 : Question := ⟨2, "q2", "a2", 2, 2⟩

/-- A sample question with id 5, as built by a successful insert. -/
def q5 : Question := ⟨5, "q", "a", 1, 1⟩

/-- A sample question whose text contains "Paris" with a capital P. -/
def parisQ : Question := ⟨7, "What is the capital of France? Paris", "Paris", 3, 1⟩

/-- C4: for every ordered sequence of items, every page n ≥ 1 and every page
size p > 0, the Paginator returns exactly the slice
items[(n-1)*p : (n-1)*p + p]: it contains at most p items, is a sublist of
the input (hence preserves order without re-ordering), and is empty when the
start index is at or beyond the end of the sequence. -/
theorem paginate_is_slice {α : Type} (items : List α) (n p : Nat)
    (_hn : 1 ≤ n) (_hp : 0 < p) :
    paginate items n p = (items.drop ((n - 1) * p)).take p ∧
    (paginate items n p).length ≤ p ∧
    (paginate items n p).Sublist items ∧
    (items.length ≤ (n - 1) * p → paginate items n p = []) := by
  refine ⟨rfl, ?_, ?_, ?_⟩
  · simp only [paginate, List.length_take]
    exact min_le_left _ _
  · exact (List.take_sublist _ _).trans (List.drop_sublist _ _)
  · intro h
    simp [paginate, List.drop_eq_nil_of_le h]

/-- Witness for `paginate_is_slice` at a concrete input. -/
theorem paginate_is_slice_witness :
    paginate [10, 20, 30, 40, 50] 2 2 = ([30, 40] : List Nat) ∧
    (paginate [10, 20, 30, 40, 50] 2 2 : List Nat).Sublist [10, 20, 30, 40, 50] ∧
    paginate ([10, 20, 30, 40, 50] : List Nat) 4 2 = [] :=
  ⟨by decide,
   (paginate_is_slice [10, 20, 30, 40, 50] 2 2 (by decide) (by decide)).2.2.1,
   (paginate_is_slice [10, 20, 30, 40, 50] 4 2 (by decide) (by decide)).2.2.2 (by decide)⟩

/-- C3: the question listing fails with NotFound exactly when the computed
page slice is empty (no questions at all, or page beyond the last page), and
on success its total_questions field counts all questions of the snapshot,
not merely the returned page. -/
theorem get_questions_spec (db : List Question) (cats : List Category)
    (page : Nat) :
    (get_questions db cats page = .error .notFound ↔
       paginate_questions db page = []) ∧
    (∀ r, get_questions db cats page = .ok r →
       r.total_questions = db.length ∧ r.questions = paginate_questions db page) := by
  by_cases h : paginate_questions db page = []
  · have hb : ((paginate_questions db page).length == 0) = true := by
      simp [h]
    constructor
    · simp [get_questions, hb, h]
    · intro r hr
      simp [get_questions, hb] at hr
  · have hb : ((paginate_questions db page).length == 0) = false := by
      simp [List.length_eq_zero, h]
    constructor
    · simp [get_questions, hb, h]
    · intro r hr
      simp only [get_questions, hb, Bool.false_eq_true, if_false] at hr
      cases hr
      exact ⟨rfl, rfl⟩

/-- Witness for `get_questions_spec` at a concrete input. -/
theorem get_questions_spec_witness :
    (⟨[q1], 1, [], none⟩ : QuestionsPage).total_questions
        = ([q1] : List Question).length ∧
    (⟨[q1], 1, [], none⟩ : QuestionsPage).questions = paginate_questions [q1] 1 :=
  (get_questions_spec [q1] [] 1).2 ⟨[q1], 1, [], none⟩ (by decide)

/-- C9: listing by category fails with NotFound exactly when no question of
the snapshot has the requested category (whether the category is unknown or
merely empty), and on success returns the matched questions, their count as
total_questions, and the stringified category id as current_category. -/
theorem get_by_category_spec (db : List Question) (cid : Nat) :
    (get_by_category db cid = .error .notFound ↔ ∀ q ∈ db, q.category ≠ cid) ∧
    (∀ r, get_by_category db cid = .ok r →
       r.questions = db.filter (fun q => q.category == cid) ∧
       r.total_questions = (db.filter (fun q => q.category == cid)).length ∧
       r.current_category = toString cid) := by
  by_cases h : db.filter (fun q => q.category == cid) = []
  · have hall : ∀ q ∈ db, q.category ≠ cid := by
      intro q hq
      have := List.filter_eq_nil_iff.mp h q hq
      simpa using this
    have hb : ((db.filter (fun q => q.category == cid)).length == 0) = true := by
      simp [h]
    constructor
    · simp [get_by_category, hb]
      exact hall
    · intro r hr
      simp [get_by_category, hb] at hr
  · have hb : ((db.filter (fun q => q.category == cid)).length == 0) = false := by
      simp [List.length_eq_zero, h]
    constructor
    · simp only [get_by_category, hb, Bool.false_eq_true, if_false]
      constructor
      · intro hc
        cases hc
      · intro hall
        exact absurd (List.filter_eq_nil_iff.mpr (by simpa using hall)) h
    · intro r hr
      simp only [get_by_category, hb, Bool.false_eq_true, if_false] at hr
      cases hr
      exact ⟨rfl, rfl, rfl⟩

/-- Witness for `get_by_category_spec` at a concrete input. -/
theorem get_by_category_spec_witness :
    (get_by_category [q1, q2] 3 = .error .notFound ↔
       ∀ q ∈ ([q1, q2] : List Question), q.category ≠ 3) ∧
    (⟨[q2], 1, "2"⟩ : CategoryResult).current_category = toString (2 : Nat) :=
  ⟨(get_by_category_spec [q1, q2] 3).1,
   ((get_by_category_spec [q1, q2] 2).2 ⟨[q2], 1, "2"⟩ (by decide)).2.2⟩

/-- C6: the quiz candidate pool is the whole snapshot when the category id is
0 and the questions of the requested category otherwise, and the quiz call
fails with NotFound exactly when that pool is empty; every successful result
(including the "quiz complete" none) comes from a non-empty pool through
`get_different_question`. -/
theorem check_category_spec (shuffle : List Question → List Question)
    (db : List Question) (cid : Nat) (previous : List Nat) :
    quiz_pool db 0 = db ∧
    (cid ≠ 0 → quiz_pool db cid = db.filter (fun q => q.category == cid)) ∧
    (check_category shuffle db cid previous = .error .notFound ↔
       quiz_pool db cid = []) ∧
    (∀ r, check_category shuffle db cid previous = .ok r →
       quiz_pool db cid ≠ [] ∧
       r = get_different_question (shuffle (quiz_pool db cid)) previous) := by
  refine ⟨by simp [quiz_pool], ?_, ?_, ?_⟩
  · intro hc
    simp [quiz_pool, hc]
  · by_cases h : quiz_pool db cid = []
    · have hb : ((quiz_pool db cid).length == 0) = true := by simp [h]
      simp [check_category, hb, h]
    · have hb : ((quiz_pool db cid).length == 0) = false := by
        simp [List.length_eq_zero, h]
      simp [check_category, hb, h]
  · intro r hr
    by_cases h : quiz_pool db cid = []
    · have hb : ((quiz_pool db cid).length == 0) = true := by simp [h]
      simp [check_category, hb] at hr
    · have hb : ((quiz_pool db cid).length == 0) = false := by
        simp [List.length_eq_zero, h]
      simp only [check_category, hb, Bool.false_eq_true, if_false] at hr
      cases hr
      exact ⟨h, rfl⟩

/-- Witness for `check_category_spec` at a concrete input. -/
theorem check_category_spec_witness :
    quiz_pool [q1, q2] 0 = [q1, q2] ∧
    quiz_pool [q1, q2] 2 = [q2] ∧
    (check_category id [q1, q2] 3 [] = .error .notFound ↔
       quiz_pool [q1, q2] 3 = []) := by
  refine ⟨(check_category_spec id [q1, q2] 0 []).1, ?_,
    (check_category_spec id [q1, q2] 3 []).2.2.1⟩
  have h := (check_category_spec id [q1, q2] 2 []).2.1 (by decide)
  rw [h]
  decide

/-- C1: a quiz call never returns a question whose id is in the supplied
previous-questions list, and when the (non-empty) candidate pool consists
only of already-asked ids the call succeeds with none — a success value, not
the NotFound failure.  `shuffle` is only assumed to permute its input, so the
statement covers every outcome of `random.shuffle`. -/
theorem get_quizzes_no_repeat (shuffle : List Question → List Question)
    (hshuffle : ∀ l, (shuffle l).Perm l)
    (db : List Question) (cid : Nat) (previous : List Nat) :
    (∀ q, get_quizzes shuffle db (some previous) (some cid) = .ok (some q) →
       q.id ∉ previous) ∧
    (quiz_pool db cid ≠ [] → (∀ q ∈ quiz_pool db cid, q.id ∈ previous) →
       get_quizzes shuffle db (some previous) (some cid) = .ok none) := by
  have hperm := hshuffle (quiz_pool db cid)
  constructor
  · intro q hq
    by_cases h : ((quiz_pool db cid).length == 0) = true
    · simp [get_quizzes, check_category, h] at hq
    · rw [Bool.not_eq_true] at h
      simp only [get_quizzes, check_category, h, Bool.false_eq_true, if_false,
        Except.ok.injEq] at hq
      have hfind := List.find?_some hq
      simpa using hfind
  · intro hne hall
    have hb : ((quiz_pool db cid).length == 0) = false := by
      simp [List.length_eq_zero, hne]
    simp only [get_quizzes, check_category, hb, Bool.false_eq_true, if_false,
      Except.ok.injEq]
    rw [get_different_question, List.find?_eq_none]
    intro q hqmem
    have : q ∈ quiz_pool db cid := hperm.mem_iff.mp hqmem
    simp [hall q this]

/-- Witness for `get_quizzes_no_repeat` at a concrete input: the pool is the
single question q1 and its id was already asked, so the quiz completes with
a successful none. -/
theorem get_quizzes_no_repeat_witness :
    get_quizzes id [q1] (some [1]) (some 0) = .ok none :=
  (get_quizzes_no_repeat id (fun l => List.Perm.refl l) [q1] 0 [1]).2
    (by decide) (by decide)

/-- Under distinct ids, filtering the snapshot for a present id yields
exactly the singleton of the matching record. -/
theorem filter_id_eq_single {db : List Question} {q : Question} {qid : Nat}
    (hnodup : (db.map (fun r => r.id)).Nodup) (hmem : q ∈ db)
    (hq : q.id = qid) :
    db.filter (fun r => r.id == qid) = [q] := by
  induction db with
  | nil => cases hmem
  | cons a rest ih =>
    rw [List.map_cons, List.nodup_cons] at hnodup
    rcases List.mem_cons.mp hmem with rfl | hmem'
    · have hrest : rest.filter (fun r => r.id == qid) = [] := by
        rw [List.filter_eq_nil_iff]
        intro r hr
        simp only [beq_iff_eq]
        intro hcontra
        exact hnodup.1 (hq ▸ hcontra ▸ List.mem_map.mpr ⟨r, hr, rfl⟩)
      simp [List.filter_cons, hq, hrest]
    · have hane : a.id ≠ qid := by
        intro he
        refine hnodup.1 ?_
        rw [he, ← hq]
        exact List.mem_map.mpr ⟨q, hmem', rfl⟩
      simp only [List.filter_cons, beq_iff_eq, hane, if_false]
      exact ih hnodup.2 hmem'

/-- C7: deleting a non-existent id fails with NotFound and leaves the
snapshot unchanged; deleting an existing id (ids being unique) removes that
question — no remaining question carries the deleted id — and returns the
deleted id together with the first page of the remaining questions. -/
theorem get_question_delete_spec (db : List Question) (qid : Nat) :
    ((∀ q ∈ db, q.id ≠ qid) → get_question db qid 1 = (db, .error .notFound)) ∧
    (∀ q ∈ db, q.id = qid → (db.map (fun r => r.id)).Nodup →
       get_question db qid 1 =
         (db.filter (fun r => !(r.id == qid)),
          .ok ⟨paginate_questions (db.filter (fun r => !(r.id == qid))) 1, qid⟩) ∧
       ∀ r ∈ db.filter (fun r => !(r.id == qid)), r.id ≠ qid) := by
  constructor
  · intro h
    have hf : db.filter (fun q => q.id == qid) = [] := by
      rw [List.filter_eq_nil_iff]
      intro a ha
      simpa using h a ha
    simp [get_question, hf]
  · intro q hmem hq hnodup
    have hf := filter_id_eq_single hnodup hmem hq
    constructor
    · simp [get_question, hf]
    · intro r hr
      have := (List.mem_filter.mp hr).2
      simpa using this

/-- Witness for `get_question_delete_spec` at a concrete input. -/
theorem get_question_delete_spec_witness :
    get_question [q1, q2] 1 1 = ([q2], .ok ⟨[q2], 1⟩) ∧
    get_question [q1, q2] 99 1 = ([q1, q2], .error .notFound) := by
  constructor
  · have h := ((get_question_delete_spec [q1, q2] 1).2 q1 (by decide)
      (by decide) (by decide)).1
    rw [h]
    decide
  · exact (get_question_delete_spec [q1, q2] 99).1 (by decide)

/-- C2: evaluating the create operation on a body whose question field is
present but whose answer is missing.  The code responds 422
(UnprocessableEntity), not 400 (InvalidRequest): the abort(400) raised for
the missing field inside the try block is an HTTPException, i.e. an
Exception, so the except clause swallows it and aborts with 422 — whatever
the repository insert would have done. -/
theorem insert_question_missing_answer_yields_422 :
    insert_question [] (Except.error ())
        ⟨some "How are you?", none, some 1, some 1, none⟩ 1
      = ([], Except.error Err.unprocessable) ∧
    insert_question [] (Except.ok q5)
        ⟨some "How are you?", none, some 1, some 1, none⟩ 1
      = ([], Except.error Err.unprocessable) :=
  ⟨rfl, rfl⟩

/-- C8: when all four fields are present and the repository insert raises,
the create operation fails with UnprocessableEntity, regardless of the
underlying cause of the failure. -/
theorem insert_question_repo_failure (db : List Question) (body : Body)
    (page : Nat) (e : Unit)
    (hq : body.question.isSome) (ha : body.answer.isSome)
    (hd : body.difficulty.isSome) (hc : body.category.isSome) :
    insert_question db (.error e) body page = (db, .error .unprocessable) := by
  rcases body with ⟨q, a, d, c, s⟩
  cases q with
  | none => simp at hq
  | some qv =>
    cases a with
    | none => simp at ha
    | some av =>
      cases d with
      | none => simp at hd
      | some dv =>
        cases c with
        | none => simp at hc
        | some cv => rfl

/-- Witness for `insert_question_repo_failure`: the repository insert
(modelled from the spec) fails because category 99 does not exist in the
catalog, and the operation surfaces 422. -/
theorem insert_question_repo_failure_witness :
    insert_question [] (repo_insert [⟨1, "Science"⟩] 5 "q" "a" 99 1)
        ⟨some "q", some "a", some 1, some 99, none⟩ 1
      = ([], .error .unprocessable) := by
  have h : repo_insert [⟨1, "Science"⟩] 5 "q" "a" 99 1 = Except.error () := by
    decide
  rw [h]
  exact insert_question_repo_failure [] ⟨some "q", some "a", some 1, some 99, none⟩
    1 () rfl rfl rfl rfl

/-- C10: when the POST body carries a non-null question field, dispatch takes
the create branch — whatever the searchTerm field holds, including a present
one, the outcome is exactly the outcome of the create operation and the
search term is never consulted. -/
theorem post_question_create_precedence (db : List Question)
    (ins : Except Unit Question) (body : Body) (page : Nat) (qs : String)
    (hq : body.question = some qs) :
    (∀ t, post_question db ins { body with searchTerm := t } page =
       post_question db ins body page) ∧
    (∀ d r, insert_question db ins body page = (d, .ok r) →
       post_question db ins body page = (d, .ok (.created r))) ∧
    (∀ d e, insert_question db ins body page = (d, .error e) →
       post_question db ins body page = (d, .error e)) := by
  rcases body with ⟨q, a, dif, c, s⟩
  simp only [Body.question] at hq
  subst hq
  refine ⟨fun t => rfl, ?_, ?_⟩
  · intro d r h
    simp [post_question, h]
  · intro d e h
    simp [post_question, h]

/-- Witness for `post_question_create_precedence` at a concrete input: a body
carrying both a question and a searchTerm creates the question and ignores
the term. -/
theorem post_question_create_precedence_witness :
    post_question [] (.ok q5)
        ⟨some "q", some "a", some 1, some 1, some "ignored"⟩ 1
      = ([q5], .ok (.created ⟨[q5], 5, "q"⟩)) :=
  (post_question_create_precedence [] (.ok q5)
      ⟨some "q", some "a", some 1, some 1, some "ignored"⟩ 1 "q" rfl).2.1
    [q5] ⟨[q5], 5, "q"⟩ (by decide)

/-- Unfolding of the matcher at a leading percent wildcard: try every suffix
of the text. -/
theorem ilikeMatch_percent_cons (ps s : List Char) :
    ilikeMatch ('%' :: ps) s = s.tails.any (fun t => ilikeMatch ps t) := by
  rw [ilikeMatch.eq_def]
  simp

/-- A lone percent wildcard matches every text. -/
theorem ilikeMatch_percent (s : List Char) : ilikeMatch ['%'] s = true := by
  rw [ilikeMatch_percent_cons, List.any_eq_true]
  exact ⟨[], (List.mem_tails [] s).mpr List.nil_suffix, rfl⟩

/-- A literal free of metacharacters (wildcards and the escape) followed by
a percent matches the text exactly when the lowercased literal is a prefix
of the lowercased text. -/
theorem ilikeMatch_lit_percent (lit : List Char)
    (h : ∀ c ∈ lit, c ≠ '%' ∧ c ≠ '_' ∧ c ≠ '\\') (s : List Char) :
    ilikeMatch (lit ++ ['%']) s = true ↔
      lit.map Char.toLower <+: s.map Char.toLower := by
  induction lit generalizing s with
  | nil =>
    simp [ilikeMatch_percent, List.nil_prefix]
  | cons a lit ih =>
    have ha := h a (List.mem_cons_self a lit)
    have h' : ∀ c ∈ lit, c ≠ '%' ∧ c ≠ '_' ∧ c ≠ '\\' :=
      fun c hc => h c (List.mem_cons_of_mem _ hc)
    cases s with
    | nil =>
      rw [List.cons_append, ilikeMatch.eq_def]
      simp [ha.1, ha.2.2]
    | cons d t =>
      have h2 : (a == '_') = false := by simp [ha.2.1]
      rw [List.cons_append, ilikeMatch.eq_def]
      simp only [ha.1, ha.2.2, if_false, h2, List.map_cons, Bool.false_or,
        Bool.and_eq_true, beq_iff_eq, List.cons_prefix_cons]
      exact and_congr Iff.rfl (ih h' t)

/-- The pattern percent-literal-percent (the shape built by the search
operation) matches the text exactly when the lowercased literal is an infix
of the lowercased text, provided the literal is free of wildcard and escape
characters. -/
theorem ilikeMatch_pattern_infix_iff (term s : List Char)
    (h : ∀ c ∈ term, c ≠ '%' ∧ c ≠ '_' ∧ c ≠ '\\') :
    ilikeMatch ('%' :: (term ++ ['%'])) s = true ↔
      term.map Char.toLower <:+: s.map Char.toLower := by
  rw [ilikeMatch_percent_cons, List.any_eq_true]
  constructor
  · rintro ⟨t, ht, hm⟩
    have hsuf : t <:+ s := (List.mem_tails t s).mp ht
    have hpre := (ilikeMatch_lit_percent term h t).mp hm
    exact List.infix_iff_prefix_suffix.mpr
      ⟨t.map Char.toLower, hpre, List.IsSuffix.map _ hsuf⟩
  · intro hinf
    obtain ⟨u, hpre, hsuf⟩ := List.infix_iff_prefix_suffix.mp hinf
    obtain ⟨pre, hpre_eq⟩ := hsuf
    obtain ⟨l₁, l₂, hs, _, hm2⟩ := List.map_eq_append_iff.mp hpre_eq.symm
    refine ⟨l₂, (List.mem_tails l₂ s).mpr ⟨l₁, hs.symm⟩, ?_⟩
    refine (ilikeMatch_lit_percent term h l₂).mpr ?_
    rw [hm2]
    exact hpre

/-- The repository query of the search operation agrees, question by
question, with the decidable case-insensitive substring test, for terms free
of wildcard and escape characters. -/
theorem ilike_eq_ci_substring (term : String)
    (h : ∀ c ∈ term.data, c ≠ '%' ∧ c ≠ '_' ∧ c ≠ '\\') (text : String) :
    ilike text ("%" ++ term ++ "%")
      = decide ((term.data.map Char.toLower) <:+: (text.data.map Char.toLower)) := by
  have hd : ("%" ++ term ++ "%").data = '%' :: (term.data ++ ['%']) := by
    simp [String.data_append]
  rw [ilike, hd]
  by_cases hP : (term.data.map Char.toLower) <:+: (text.data.map Char.toLower)
  · simp [hP, (ilikeMatch_pattern_infix_iff term.data text.data h).mpr hP]
  · have hne : ilikeMatch ('%' :: (term.data ++ ['%'])) text.data ≠ true :=
      fun hc => hP ((ilikeMatch_pattern_infix_iff term.data text.data h).mp hc)
    simp [hP, Bool.eq_false_iff.mpr hne]

/-- C5 counterexample: for the term "_" — a single SQL LIKE wildcard — the
repository query matches the text "x", which does not contain "_" as a
substring, so the search filter and the spec's case-insensitive substring
filter disagree.  The escape character diverges too: the backslash-bearing
term matching pattern percent-a-backslash-b-percent matches the text "ab"
(the escaped b matches a literal b) although the term is not a substring of
it. -/
theorem search_filter_wildcard_counterexample :
    search_filter [⟨1, "x", "a", 1, 1⟩] "_"
      ≠ ci_substring_filter [⟨1, "x", "a", 1, 1⟩] "_" ∧
    search_filter [⟨1, "ab", "a", 1, 1⟩] "a\\b"
      ≠ ci_substring_filter [⟨1, "ab", "a", 1, 1⟩] "a\\b" := by
  constructor
  · decide
  · decide

/-- C5 (amended): for every term free of the SQL LIKE metacharacters — the
wildcards percent and underscore and the backslash escape — the search
filter returns exactly the questions whose text contains the term as a
substring under case-insensitive comparison, in the original listing order,
and the empty term returns the whole input. -/
theorem search_filter_eq_ci_substring (db : List Question) (term : String)
    (h : ∀ c ∈ term.data, c ≠ '%' ∧ c ≠ '_' ∧ c ≠ '\\') :
    search_filter db term = ci_substring_filter db term ∧
    search_filter db "" = db := by
  constructor
  · exact List.filter_congr (fun q _ => ilike_eq_ci_substring term h q.question)
  · rw [search_filter, List.filter_eq_self]
    intro q _
    show ilike q.question ("%" ++ "" ++ "%") = true
    have hd : ("%" ++ "" ++ "%").data = ['%', '%'] := rfl
    rw [ilike, hd, ilikeMatch_percent_cons, List.any_eq_true]
    exact ⟨q.question.data,
      (List.mem_tails _ _).mpr (List.suffix_refl _), ilikeMatch_percent _⟩

/-- Witness for `search_filter_eq_ci_substring`: a record containing "Paris"
matches the term "paris", and the empty term returns the whole store. -/
theorem search_filter_eq_ci_substring_witness :
    search_filter [parisQ] "paris" = ci_substring_filter [parisQ] "paris" ∧
    search_filter [parisQ] "paris" = [parisQ] ∧
    search_filter [parisQ] "" = [parisQ] :=
  ⟨(search_filter_eq_ci_substring [parisQ] "paris" (by decide)).1,
   by decide,
   (search_filter_eq_ci_substring [parisQ] "paris" (by decide)).2⟩

end Trivia
